import Mathlib

/-!
Verification of the GDAL proxy-pool (`gcore/gdalproxypool.cpp`).

The development shallowly embeds the dataset pool (`GDALDatasetPool`) and the
proxy dataset (`GDALProxyPoolDataset`) as pure Lean functions over explicit
state.  Conventions:

* The intrusive doubly-linked LRU list (`firstEntry`/`lastEntry`, `prev`/`next`
  pointers) is represented as a `List CacheEntry` ordered head (MRU) to tail
  (LRU).  Pointer identity of a malloc'd entry is represented by the `entryId`
  field, which is preserved when an entry's storage is recycled by eviction.
* `GDALDataset*` handles produced by `GDALOpenEx` are abstract tokens
  (`Option Nat`); the opener itself is outside the pool and is passed in as the
  `openResult` oracle of one call.
* The per-thread responsible PID (`GDALGetResponsiblePIDForCurrentThread`) is
  passed explicitly as the `rid` argument; functions that temporarily override
  it report the close operations they performed as `CloseEvent`s carrying the
  PID in effect at the `GDALClose` call, and return the final thread PID so
  that restoration is provable.
* `CPLAssert(0)` (release builds continue into undefined list surgery) is
  modelled by the distinguished outcome `RefOutcome.assertViolation`; behaviour
  past a failed assertion is not modelled.
* IEEE-754 doubles in the geotransform are only ever copied bit-for-bit
  (`memcpy`), never computed with, so each is represented by its bit pattern
  as an `Int`.
-/

namespace GDALProxyPool

/-- Source `GDALAccess`: read-only or update. -/
inductive Access
  | read
  | update
deriving DecidableEq, Repr

/-- Source `_GDALProxyPoolCacheEntry`: one slot of the pool's LRU list.
`entryId` stands for the address of the malloc'd struct (stable across
recycling), `poDS` for the `GDALDataset*` handle (`none` = NULL). -/
structure CacheEntry where
  entryId : Nat
  responsiblePID : Int
  pszFileName : String
  poDS : Option Nat
  refCount : Int
deriving DecidableEq, Repr

/-- Source `GDALDatasetPool`: the singleton's fields.  `entries` is the linked list
from `firstEntry` (head, MRU) to `lastEntry` (tail, LRU); `nextId` supplies
fresh `entryId`s for newly malloc'd entries. -/
structure Pool where
  refCount : Int
  maxSize : Nat
  currentSize : Nat
  entries : List CacheEntry
  refCountOfDisableRefCount : Int
  nextId : Nat
deriving DecidableEq, Repr

/-- A `GDALClose` performed by the pool: which handle was closed and the
responsible PID the thread slot held while closing. -/
structure CloseEvent where
  handle : Nat
  rid : Int
deriving DecidableEq, Repr

/-- Result of `_RefDataset`: a returned entry, the `CPLError` +
NULL-return path (carrying the pool size named in the diagnostic), or the
`CPLAssert(0)` reached when the eviction victim has no predecessor. -/
inductive RefOutcome
  | ok (e : CacheEntry)
  | exhausted (limit : Nat)
  | assertViolation
deriving DecidableEq, Repr

/-- Full observable effect of one `_RefDataset` call: its return value, the
pool after the call, the closes it performed, the thread's responsible PID
when it returns, and (when an open was performed) the value of
`refCountOfDisableRefCount` in effect during the `GDALOpenEx` call. -/
structure RefStep where
  outcome : RefOutcome
  pool : Pool
  closes : List CloseEvent
  finalRid : Int
  openDisable : Option Int
deriving DecidableEq, Repr

/-- The match test of `_RefDataset`'s scan loop:
`strcmp(cur->pszFileName, pszFileName) == 0 && ((bShared &&
cur->responsiblePID == responsiblePID) || (!bShared && cur->refCount == 0))`. -/
def entryMatches (e : CacheEntry) (p : String) (rid : Int) (bShared : Bool) : Bool :=
  e.pszFileName == p &&
    ((bShared && e.responsiblePID == rid) || (!bShared && e.refCount == 0))

/-- The scan loop's successful case: first matching entry, together with the
list with that entry unlinked (the source then splices it to the head). -/
def findMatch (p : String) (rid : Int) (bShared : Bool) :
    List CacheEntry → Option (CacheEntry × List CacheEntry)
  | [] => none
  | e :: rest =>
    if entryMatches e p rid bShared then some (e, rest)
    else
      match findMatch p rid bShared rest with
      | some (m, rest') => some (m, e :: rest')
      | none => none

/-- The scan loop's `lastEntryWithZeroRefCount`: the last entry (in head-to-
tail order) with `refCount == 0`, split out of the list as
(entries before it, the entry, entries after it). -/
def splitLastZero : List CacheEntry → Option (List CacheEntry × CacheEntry × List CacheEntry)
  | [] => none
  | e :: rest =>
    match splitLastZero rest with
    | some (b, v, a) => some (e :: b, v, a)
    | none => if e.refCount == 0 then some ([], e, rest) else none

/-- Source `GDALDatasetPool::_RefDataset`.  `rid` is the current thread's responsible
PID; `openResult` is the oracle for the single `GDALOpenEx` this call may
perform (`none` = the opener returned NULL).

* Scan hit: unlink, splice to head, `refCount++`, return the entry.
* Miss with `currentSize == maxSize` and no zero-refcount entry: `CPLError`
  naming `maxSize`, return NULL, state untouched.
* Miss with `currentSize == maxSize` and a victim: if the victim has no
  predecessor the source hits `CPLAssert(0)` (modelled as the
  `assertViolation` outcome); otherwise close the victim's handle (if any)
  with the thread PID set to the victim's `responsiblePID` (restored after),
  recycle its storage at the head for the new file, and open.
* Miss with room: malloc a fresh entry, prepend, and open.

Opens run with `refCountOfDisableRefCount` incremented; the value in effect
is reported in `openDisable`. -/
def Pool.refDatasetAux (s : Pool) (p : String) (rid : Int) (bShared : Bool)
    (openResult : Option Nat) : RefStep :=
  match findMatch p rid bShared s.entries with
  | some (m, rest) =>
    let m' : CacheEntry := { m with refCount := m.refCount + 1 }
    { outcome := .ok m', pool := { s with entries := m' :: rest },
      closes := [], finalRid := rid, openDisable := none }
  | none =>
    if s.currentSize == s.maxSize then
      match splitLastZero s.entries with
      | none =>
        { outcome := .exhausted s.maxSize, pool := s, closes := [],
          finalRid := rid, openDisable := none }
      | some (before, victim, after) =>
        match before with
        | [] =>
          { outcome := .assertViolation, pool := s, closes := [],
            finalRid := rid, openDisable := none }
        | b0 :: bs =>
          let closes : List CloseEvent :=
            match victim.poDS with
            | some h => [{ handle := h, rid := victim.responsiblePID }]
            | none => []
          let fresh : CacheEntry :=
            { entryId := victim.entryId, responsiblePID := rid,
              pszFileName := p, poDS := openResult, refCount := 1 }
          { outcome := .ok fresh,
            pool := { s with entries := fresh :: ((b0 :: bs) ++ after) },
            closes := closes, finalRid := rid,
            openDisable := some (s.refCountOfDisableRefCount + 1) }
    else
      let fresh : CacheEntry :=
        { entryId := s.nextId, responsiblePID := rid,
          pszFileName := p, poDS := openResult, refCount := 1 }
      let pool' : Pool :=
        { s with entries := fresh :: s.entries,
                 currentSize := s.currentSize + 1, nextId := s.nextId + 1 }
      { outcome := .ok fresh, pool := pool',
        closes := [], finalRid := rid,
        openDisable := some (s.refCountOfDisableRefCount + 1) }

/-- Source `GDALDatasetPool::UnrefDataset`: `cacheEntry->refCount--` through the
entry pointer, identified here by `entryId`. -/
def Pool.unrefDataset (s : Pool) (eid : Nat) : Pool :=
  { s with entries := s.entries.map (fun e =>
      if e.entryId == eid then { e with refCount := e.refCount - 1 } else e) }

/-- The scan of `_CloseDataset`: find the first entry with the requested file
name, `refCount == 0`, and a live handle; close that handle under the entry's
recorded responsible PID, NULL the handle and empty the file name, keep the
shell in place, and stop. -/
def closeScan : List CacheEntry → String → List CacheEntry × List CloseEvent
  | [], _ => ([], [])
  | e :: rest, p =>
    match e.poDS with
    | some h =>
      if e.pszFileName == p && e.refCount == 0 then
        ({ e with poDS := none, pszFileName := "" } :: rest,
         [{ handle := h, rid := e.responsiblePID }])
      else
        let r := closeScan rest p
        (e :: r.1, r.2)
    | none =>
      let r := closeScan rest p
      (e :: r.1, r.2)

/-- The predicate an entry must satisfy to be selected by `_CloseDataset`. -/
def closeMatch (e : CacheEntry) (p : String) : Bool :=
  e.pszFileName == p && e.refCount == 0 && e.poDS.isSome

/-- Source `GDALDatasetPool::_CloseDataset` (the access-mode argument is
`CPL_UNUSED` in the source). -/
def Pool.closeDatasetAux (s : Pool) (p : String) (_a : Access) :
    Pool × List CloseEvent :=
  let r := closeScan s.entries p
  ({ s with entries := r.1 }, r.2)

/-- Source `atoi(CPLGetConfigOption("GDAL_MAX_DATASET_POOL_SIZE", "100"))` followed
by the range check of `GDALDatasetPool::Ref`: out-of-range values are replaced
by 100.  `none` models an unset configuration option. -/
def computeMaxSize (cfg : Option Int) : Int :=
  let l : Int :=
    match cfg with
    | none => 100
    | some v => v
  if l < 2 ∨ 1000 < l then 100 else l

/-- Source `GDALDatasetPool::GDALDatasetPool(maxSizeIn)`. -/
def newPool (maxSizeIn : Nat) : Pool :=
  { refCount := 0, maxSize := maxSizeIn, currentSize := 0, entries := [],
    refCountOfDisableRefCount := 0, nextId := 0 }

/-- Source `GDALDatasetPool::Ref` acting on the singleton (`none` = no singleton):
lazily create the pool, reading the configuration only at creation, then
increment `refCount` unless `refCountOfDisableRefCount` is non-zero. -/
def poolRef (cfg : Option Int) (s : Option Pool) : Option Pool :=
  let s' : Pool :=
    match s with
    | none => newPool (computeMaxSize cfg).toNat
    | some pool => pool
  some (if s'.refCountOfDisableRefCount == 0
        then { s' with refCount := s'.refCount + 1 }
        else s')

/-- Source `GDALDatasetPool::Unref`: decrement `refCount` and destroy the singleton
when it reaches zero, unless `refCountOfDisableRefCount` is non-zero.  With no
singleton the source asserts and returns. -/
def poolUnref (s : Option Pool) : Option Pool :=
  match s with
  | none => none
  | some pool =>
    if pool.refCountOfDisableRefCount == 0 then
      let pool' := { pool with refCount := pool.refCount - 1 }
      if pool'.refCount == 0 then none else some pool'
    else
      some pool

/-- A top-level pool lifecycle operation, as issued by
`GDALProxyPoolDataset`'s constructor (`Ref`) and destructor (`Unref`). -/
inductive PoolOp
  | ref (cfg : Option Int)
  | unref
deriving DecidableEq, Repr

/-- Apply one lifecycle operation to the singleton. -/
def applyPoolOp : PoolOp → Option Pool → Option Pool
  | .ref cfg, s => poolRef cfg s
  | .unref, s => poolUnref s

/-- Apply a sequence of lifecycle operations to the singleton. -/
def applyPoolOps (ops : List PoolOp) (s : Option Pool) : Option Pool :=
  ops.foldl (fun st op => applyPoolOp op st) s

/-- Source `GDALDatasetPool::RefDataset` (static): `singleton->_RefDataset(...)`
with no NULL check.  The dereference of an absent singleton is undefined,
modelled by the `none` result. -/
def RefDataset (singleton : Option Pool) (p : String) (rid : Int)
    (bShared : Bool) (openResult : Option Nat) : Option RefStep :=
  match singleton with
  | none => none
  | some pool => some (pool.refDatasetAux p rid bShared openResult)

/-- Source `GDALDatasetPool::CloseDataset` (static): `singleton->_CloseDataset(...)`
with no NULL check; `none` models the undefined dereference. -/
def CloseDataset (singleton : Option Pool) (p : String) (a : Access) :
    Option (Pool × List CloseEvent) :=
  match singleton with
  | none => none
  | some pool => some (pool.closeDatasetAux p a)

/-- The six `double`s of a geotransform, each represented by its IEEE-754 bit
pattern (the source only ever `memcpy`s them). -/
structure GeoTransform where
  g0 : Int
  g1 : Int
  g2 : Int
  g3 : Int
  g4 : Int
  g5 : Int
deriving DecidableEq, Repr

/-- The default `adfGeoTransform` written by the constructor when no
geotransform is supplied: `(0, 1, 0, 0, 0, 1)` (bit patterns of those
doubles). -/
def identityGeoTransform : GeoTransform :=
  { g0 := 0, g1 := 1, g2 := 0, g3 := 0, g4 := 0, g5 := 1 }

/-- Source `GDALProxyPoolDataset`'s fields (those the scanned code initialises and
the overlay logic reads). -/
structure ProxyDataset where
  description : String
  nRasterXSize : Int
  nRasterYSize : Int
  eAccess : Access
  bShared : Bool
  responsiblePID : Int
  pszProjectionRef : Option String
  bHasSrcProjection : Bool
  adfGeoTransform : GeoTransform
  bHasSrcGeoTransform : Bool
  pszGCPProjection : Option String
  nGCPCount : Int
  cacheEntry : Option Nat
deriving DecidableEq, Repr

/-- Source `CPLStrdup`: a NULL argument yields an owned copy of the empty string. -/
def cplStrdup : Option String → String
  | some st => st
  | none => ""

/-- Field initialisation of `GDALProxyPoolDataset::GDALProxyPoolDataset`
(`curRid` is `GDALGetResponsiblePIDForCurrentThread()`; the constructor's
`GDALDatasetPool::Ref()` call is modelled separately by `PoolOp.ref`).
Note the source's projection branches: when `pszProjectionRefIn` is non-NULL
it stores NULL and clears `bHasSrcProjection`; when it is NULL it strdups the
NULL argument and sets `bHasSrcProjection`. -/
def mkProxyPoolDataset (desc : String) (x y : Int) (acc : Access)
    (bSharedIn : Bool) (projIn : Option String) (gtIn : Option GeoTransform)
    (curRid : Int) : ProxyDataset :=
  { description := desc, nRasterXSize := x, nRasterYSize := y, eAccess := acc,
    bShared := bSharedIn, responsiblePID := curRid,
    pszProjectionRef :=
      match projIn with
      | some _ => none
      | none => some (cplStrdup projIn),
    bHasSrcProjection :=
      match projIn with
      | some _ => false
      | none => true,
    adfGeoTransform :=
      match gtIn with
      | some gt => gt
      | none => identityGeoTransform,
    bHasSrcGeoTransform := gtIn.isSome,
    pszGCPProjection := none, nGCPCount := 0, cacheEntry := none }

/-- Where `GDALProxyPoolDataset::GetProjectionRef` gets its answer from:
the stored overlay (no pool access), or delegation to the underlying dataset
through `GDALProxyDataset::GetProjectionRef` (which refs the pool). -/
inductive ProjAnswer
  | overlay (proj : Option String)
  | delegated
deriving DecidableEq, Repr

/-- Source `GDALProxyPoolDataset::GetProjectionRef`. -/
def ProxyDataset.getProjectionRefResult (ds : ProxyDataset) : ProjAnswer :=
  if ds.bHasSrcProjection then .overlay ds.pszProjectionRef else .delegated

/-- Where `GDALProxyPoolDataset::GetGeoTransform` gets its answer from:
the stored six doubles copied out (no pool access), or delegation through
the proxy base class. -/
inductive GTAnswer
  | overlay (gt : GeoTransform)
  | delegated
deriving DecidableEq, Repr

/-- Source `GDALProxyPoolDataset::GetGeoTransform`. -/
def ProxyDataset.getGeoTransformResult (ds : ProxyDataset) : GTAnswer :=
  if ds.bHasSrcGeoTransform then .overlay ds.adfGeoTransform else .delegated

/-- Source `GDALProxyPoolDataset::RefUnderlyingDataset` acting directly on the pool
state: set the thread PID to the proxy's creator PID, call `RefDataset`,
restore the PID; on a non-NULL entry with a NULL `poDS`, `UnrefDataset` it and
return NULL.  Returns (handle handed to the caller, pool after the call,
final thread PID). -/
def refUnderlyingDataset (ds : ProxyDataset) (curRid : Int) (s : Pool)
    (openResult : Option Nat) : Option Nat × Pool × Int :=
  let step := s.refDatasetAux ds.description ds.responsiblePID ds.bShared openResult
  match step.outcome with
  | .ok e =>
    match e.poDS with
    | some h => (some h, step.pool, curRid)
    | none => (none, step.pool.unrefDataset e.entryId, curRid)
  | .exhausted _ => (none, step.pool, curRid)
  | .assertViolation => (none, step.pool, curRid)

/-! ### Lemmas about the scan loops -/

theorem findMatch_eq_none {p : String} {rid : Int} {sh : Bool}
    {l : List CacheEntry} (h : ∀ e ∈ l, e.pszFileName ≠ p) :
    findMatch p rid sh l = none := by
  induction l with
  | nil => rfl
  | cons e rest ih =>
    have he : (e.pszFileName == p) = false := by
      simpa using h e (List.mem_cons_self e rest)
    simp [findMatch, entryMatches, he,
      ih (fun x hx => h x (List.mem_cons_of_mem _ hx))]

theorem splitLastZero_append_last {l : List CacheEntry} {v : CacheEntry}
    (hv : v.refCount = 0) : splitLastZero (l ++ [v]) = some (l, v, []) := by
  induction l with
  | nil => simp [splitLastZero, hv]
  | cons e rest ih => simp [splitLastZero, ih]

theorem splitLastZero_eq_none_of {l : List CacheEntry}
    (h : ∀ e ∈ l, e.refCount ≠ 0) : splitLastZero l = none := by
  induction l with
  | nil => rfl
  | cons e rest ih =>
    have he : (e.refCount == 0) = false := by
      simpa using h e (List.mem_cons_self e rest)
    simp [splitLastZero, he, ih (fun x hx => h x (List.mem_cons_of_mem _ hx))]

theorem refCount_ne_zero_of_splitLastZero_eq_none {l : List CacheEntry}
    (h : splitLastZero l = none) : ∀ e ∈ l, e.refCount ≠ 0 := by
  induction l with
  | nil => simp
  | cons e rest ih =>
    simp only [splitLastZero] at h
    cases hr : splitLastZero rest with
    | some x => rw [hr] at h; simp at h
    | none =>
      rw [hr] at h
      by_cases hz : e.refCount = 0
      · simp [hz] at h
      · intro x hx
        rcases List.mem_cons.mp hx with rfl | hx'
        · exact hz
        · exact ih hr x hx'

theorem splitLastZero_eq_none_iff {l : List CacheEntry} :
    splitLastZero l = none ↔ ∀ e ∈ l, e.refCount ≠ 0 :=
  ⟨refCount_ne_zero_of_splitLastZero_eq_none, splitLastZero_eq_none_of⟩

theorem splitLastZero_eq_some {l b : List CacheEntry} {v : CacheEntry}
    {a : List CacheEntry} (h : splitLastZero l = some (b, v, a)) :
    l = b ++ v :: a ∧ v.refCount = 0 := by
  induction l generalizing b with
  | nil => simp [splitLastZero] at h
  | cons e rest ih =>
    simp only [splitLastZero] at h
    cases hr : splitLastZero rest with
    | some x =>
      obtain ⟨b', v', a'⟩ := x
      rw [hr] at h
      simp only [Option.some.injEq, Prod.mk.injEq] at h
      obtain ⟨hb, hv, ha⟩ := h
      obtain ⟨hrest, hrc⟩ := ih (by rw [hr, hv, ha])
      subst hb hv ha
      exact ⟨by rw [hrest]; rfl, hrc⟩
    | none =>
      rw [hr] at h
      by_cases hz : e.refCount = 0
      · simp only [hz, beq_self_eq_true, if_true, Option.some.injEq,
          Prod.mk.injEq] at h
        obtain ⟨hb, hv, ha⟩ := h
        subst hv ha
        exact ⟨by rw [← hb]; simp, hz⟩
      · have : (e.refCount == 0) = false := by simpa using hz
        rw [this] at h
        simp at h

theorem closeScan_eq_of_no_match {l : List CacheEntry} {p : String}
    (h : ∀ e ∈ l, closeMatch e p = false) : closeScan l p = (l, []) := by
  induction l with
  | nil => rfl
  | cons e rest ih =>
    have he := h e (List.mem_cons_self e rest)
    have ih' := ih (fun x hx => h x (List.mem_cons_of_mem _ hx))
    cases hd : e.poDS with
    | none => simp [closeScan, hd, ih']
    | some hv =>
      have hc : (e.pszFileName == p && e.refCount == 0) = false := by
        simp only [closeMatch, hd, Option.isSome_some, Bool.and_true] at he
        exact he
      simp [closeScan, hd, hc, ih']

theorem closeScan_idem {l : List CacheEntry} {p : String}
    (h : l.countP (fun e => closeMatch e p) ≤ 1) :
    closeScan (closeScan l p).1 p = ((closeScan l p).1, []) := by
  induction l with
  | nil => rfl
  | cons e rest ih =>
    cases hd : e.poDS with
    | some hv =>
      by_cases hc : (e.pszFileName == p && e.refCount == 0) = true
      · have hcm : closeMatch e p = true := by
          simp [closeMatch, hd, hc]
        have hcnt : rest.countP (fun e => closeMatch e p) = 0 := by
          rw [List.countP_cons_of_pos (fun x => closeMatch x p) rest
            (by simpa using hcm)] at h
          omega
        have hnm : ∀ x ∈ rest, closeMatch x p = false := by
          intro x hx
          simpa using List.countP_eq_zero.mp hcnt x hx
        simp [closeScan, hd, hc, closeScan_eq_of_no_match hnm]
      · have h' : rest.countP (fun e => closeMatch e p) ≤ 1 := by
          rw [List.countP_cons] at h
          omega
        simp [closeScan, hd, hc, ih h']
    | none =>
      have h' : rest.countP (fun e => closeMatch e p) ≤ 1 := by
        rw [List.countP_cons] at h
        omega
      simp [closeScan, hd, ih h']

/-! ### Claim theorems -/

/-- The geotransform overlay used in the C1 evaluation (arbitrary bit
patterns). -/
def c1GeoTransform : GeoTransform :=
  { g0 := 3, g1 := 4, g2 := 5, g3 := 6, g4 := 7, g5 := 8 }

/-- A proxy dataset constructed with both a projection overlay and a
geotransform overlay. -/
def c1Proxy : ProxyDataset :=
  mkProxyPoolDataset "a.tif" 1 1 Access.read false (some "GEOGCS-WKT")
    (some c1GeoTransform) 7

/-- C1: the claim says a pre-seeded projection overlay is returned
bit-identical by `GetProjectionRef` without consulting the pool.  The code's
constructor branches are inverted: passing a projection stores NULL and
clears `bHasSrcProjection`, so `GetProjectionRef` delegates through the pool
instead; passing no projection sets the flag and strdups the NULL argument.
The geotransform half of the claim does hold.  This contradicts the evident
intent (the else-branch duplicates `pszProjectionRefIn` exactly where it is
NULL), so the code, not the claim, is wrong. -/
theorem projection_overlay_dropped_at_construction :
    c1Proxy.bHasSrcProjection = false ∧
    c1Proxy.pszProjectionRef = none ∧
    c1Proxy.getProjectionRefResult = ProjAnswer.delegated ∧
    c1Proxy.getGeoTransformResult = GTAnswer.overlay c1GeoTransform ∧
    (mkProxyPoolDataset "a.tif" 1 1 Access.read false none none 7).bHasSrcProjection
      = true ∧
    (mkProxyPoolDataset "a.tif" 1 1 Access.read false none none 7).pszProjectionRef
      = some "" := by
  exact ⟨rfl, rfl, rfl, rfl, rfl, rfl⟩

/-- C2 counterexample: a configured `GDAL_MAX_DATASET_POOL_SIZE` of 1 yields
`maxSize` 100, not the claimed clamp result 2; a configured 1001 yields 100,
not 1000. -/
theorem maxSize_out_of_range_not_clamped :
    computeMaxSize (some 1) = 100 ∧ computeMaxSize (some 1) ≠ 2 ∧
    computeMaxSize (some 1001) = 100 ∧ computeMaxSize (some 1001) ≠ 1000 ∧
    (poolRef (some 1) none).map Pool.maxSize = some 100 := by
  exact ⟨by decide, by decide, by decide, by decide, by decide⟩

/-- C2 (amended): at first pool creation `maxSize` is the configured value
when it lies in `[2, 1000]`, and the default 100 when the option is unset or
its value lies outside `[2, 1000]` (out-of-range values fall back to the
default, they are not clamped to the nearer bound); once the singleton
exists, `Ref` ignores the configuration entirely, so the option is read only
at first creation. -/
theorem maxSize_config_semantics :
    ∀ v : Int,
      computeMaxSize none = 100 ∧
      (2 ≤ v → v ≤ 1000 → computeMaxSize (some v) = v) ∧
      ((v < 2 ∨ 1000 < v) → computeMaxSize (some v) = 100) ∧
      (∀ (cfg cfg' : Option Int) (pool : Pool),
        poolRef cfg (some pool) = poolRef cfg' (some pool)) := by
  intro v
  refine ⟨by decide, ?_, ?_, fun cfg cfg' pool => rfl⟩
  · intro h1 h2
    show (if v < 2 ∨ 1000 < v then 100 else v) = v
    rw [if_neg (by omega)]
  · intro h
    show (if v < 2 ∨ 1000 < v then 100 else v) = 100
    rw [if_pos h]

/-- Witness for `maxSize_config_semantics` at the in-range value 500. -/
theorem maxSize_config_semantics_witness :
    (2 : Int) ≤ 500 ∧ (500 : Int) ≤ 1000 ∧ computeMaxSize (some 500) = 500 :=
  ⟨by decide, by decide,
    (maxSize_config_semantics 500).2.1 (by decide) (by decide)⟩

/-- C6: whenever `refCountOfDisableRefCount > 0` — as during any open or
close the pool performs itself — every sequence of top-level `Ref`/`Unref`
operations (in particular the `Ref` of a `GDALProxyPoolDataset` constructed
inside the opener and the `Unref` of its destructor) leaves the singleton
completely unchanged: `refCount` does not move and the pool is never
destroyed.  The first conjunct records that any `GDALOpenEx` issued by
`_RefDataset` runs with the counter incremented, hence positive in any state
with a non-negative counter. -/
theorem suppressed_ref_unref_are_noops :
    (∀ (s : Pool) (p : String) (rid : Int) (sh : Bool) (o : Option Nat) (d : Int),
        0 ≤ s.refCountOfDisableRefCount →
        (s.refDatasetAux p rid sh o).openDisable = some d → 0 < d) ∧
    (∀ pool : Pool, 0 < pool.refCountOfDisableRefCount →
        ∀ ops : List PoolOp, applyPoolOps ops (some pool) = some pool) := by
  constructor
  · intro s p rid sh o d hge h
    unfold Pool.refDatasetAux at h
    split at h
    · simp at h
    · split at h
      · split at h
        · simp at h
        · split at h
          · simp at h
          · simp only [Option.some.injEq] at h
            omega
      · simp only [Option.some.injEq] at h
        omega
  · intro pool hpos ops
    have hne : (pool.refCountOfDisableRefCount == 0) = false := by
      have : pool.refCountOfDisableRefCount ≠ 0 := by omega
      simpa using this
    induction ops with
    | nil => rfl
    | cons op rest ih =>
      have hstep : applyPoolOp op (some pool) = some pool := by
        cases op with
        | ref cfg => simp [applyPoolOp, poolRef, hne]
        | unref => simp [applyPoolOp, poolUnref, hne]
      calc applyPoolOps (op :: rest) (some pool)
          = applyPoolOps rest (applyPoolOp op (some pool)) := rfl
        _ = applyPoolOps rest (some pool) := by rw [hstep]
        _ = some pool := ih

/-- A pool in the middle of an open it performs itself
(`refCountOfDisableRefCount = 1`). -/
def demoSuppressedPool : Pool :=
  { refCount := 1, maxSize := 100, currentSize := 0, entries := [],
    refCountOfDisableRefCount := 1, nextId := 0 }

/-- Witness for `suppressed_ref_unref_are_noops`: a ProxyDataset constructed
(`Ref`) and destroyed (`Unref`) during a suppressed window changes nothing. -/
theorem suppressed_ref_unref_are_noops_witness :
    0 < demoSuppressedPool.refCountOfDisableRefCount ∧
    applyPoolOps [PoolOp.ref none, PoolOp.unref] (some demoSuppressedPool)
      = some demoSuppressedPool :=
  ⟨by decide,
    suppressed_ref_unref_are_noops.2 demoSuppressedPool (by decide)
      [PoolOp.ref none, PoolOp.unref]⟩

/-- C10: the static `RefDataset` and `CloseDataset` dereference the singleton
with no NULL check; with no singleton the dereference is undefined (modelled
as `none`), and with a live singleton both operations are defined. -/
theorem static_pool_ops_require_live_singleton :
    ∀ (p : String) (rid : Int) (sh : Bool) (o : Option Nat) (a : Access),
      RefDataset none p rid sh o = none ∧
      CloseDataset none p a = none ∧
      ∀ pool : Pool,
        (RefDataset (some pool) p rid sh o).isSome = true ∧
        (CloseDataset (some pool) p a).isSome = true := by
  intro p rid sh o a
  exact ⟨rfl, rfl, fun pool => ⟨rfl, rfl⟩⟩

/-- C3: in a full pool (`size == maxSize`, list length `size`, `maxSize ≥ 2`
as the configuration guarantees) in which every entry is unpinned and none
carries the requested path, `refDataset` evicts exactly the tail — the last
zero-refcount entry in MRU-to-LRU order — closing its handle in a single
close performed with the thread's responsible PID set to the victim's stored
PID (the returned PID shows the caller's PID restored), recycles the victim's
storage at the head for the newly opened path, and leaves the size and every
other entry untouched. -/
theorem refDataset_full_unpinned_evicts_tail :
    ∀ (s : Pool) (p : String) (rid : Int) (sh : Bool) (o : Option Nat)
      (init : List CacheEntry) (v : CacheEntry) (hdl : Nat),
      s.entries = init ++ [v] →
      s.currentSize = s.maxSize →
      s.entries.length = s.currentSize →
      2 ≤ s.maxSize →
      (∀ e ∈ s.entries, e.refCount = 0) →
      (∀ e ∈ s.entries, e.pszFileName ≠ p) →
      v.poDS = some hdl →
      (s.refDatasetAux p rid sh o).outcome = RefOutcome.ok
          { entryId := v.entryId, responsiblePID := rid, pszFileName := p,
            poDS := o, refCount := 1 } ∧
      (s.refDatasetAux p rid sh o).pool.entries =
          { entryId := v.entryId, responsiblePID := rid, pszFileName := p,
            poDS := o, refCount := 1 } :: init ∧
      (s.refDatasetAux p rid sh o).pool.currentSize = s.currentSize ∧
      (s.refDatasetAux p rid sh o).closes =
          [{ handle := hdl, rid := v.responsiblePID }] ∧
      (s.refDatasetAux p rid sh o).finalRid = rid := by
  intro s p rid sh o init v hdl hent hsz hlen hmax hzero hpath hds
  obtain ⟨b0, bs, rfl⟩ : ∃ b0 bs, init = b0 :: bs := by
    cases hi : init with
    | nil =>
      rw [hent, hi] at hlen
      simp at hlen
      omega
    | cons b0 bs => exact ⟨b0, bs, rfl⟩
  have hfm : findMatch p rid sh s.entries = none := findMatch_eq_none hpath
  have hvz : v.refCount = 0 := hzero v (by rw [hent]; simp)
  have hsplit : splitLastZero s.entries = some (b0 :: bs, v, []) := by
    rw [hent]
    exact splitLastZero_append_last hvz
  have hbeq : (s.currentSize == s.maxSize) = true := by simpa using hsz
  refine ⟨?_, ?_, ?_, ?_, ?_⟩ <;>
    simp [Pool.refDatasetAux, hfm, hbeq, hsplit, hds]

/-- Entry "A", unpinned, open handle 1, opened by thread 1. -/
def c3EntryA : CacheEntry :=
  { entryId := 0, responsiblePID := 1, pszFileName := "A", poDS := some 1,
    refCount := 0 }

/-- Entry "B", unpinned, open handle 2, opened by thread 2. -/
def c3EntryB : CacheEntry :=
  { entryId := 1, responsiblePID := 2, pszFileName := "B", poDS := some 2,
    refCount := 0 }

/-- A full two-entry pool of unpinned entries. -/
def c3Pool : Pool :=
  { refCount := 1, maxSize := 2, currentSize := 2,
    entries := [c3EntryA, c3EntryB], refCountOfDisableRefCount := 0,
    nextId := 2 }

/-- Witness for `refDataset_full_unpinned_evicts_tail`: requesting "C" in the
full unpinned pool [A, B] evicts B (closing handle 2 under B's PID 2) and
recycles its slot at the head for "C". -/
theorem refDataset_full_unpinned_evicts_tail_witness :
    (c3Pool.refDatasetAux "C" 5 true (some 9)).outcome = RefOutcome.ok
        { entryId := 1, responsiblePID := 5, pszFileName := "C",
          poDS := some 9, refCount := 1 } ∧
    (c3Pool.refDatasetAux "C" 5 true (some 9)).pool.entries =
        { entryId := 1, responsiblePID := 5, pszFileName := "C",
          poDS := some 9, refCount := 1 } :: [c3EntryA] ∧
    (c3Pool.refDatasetAux "C" 5 true (some 9)).pool.currentSize
        = c3Pool.currentSize ∧
    (c3Pool.refDatasetAux "C" 5 true (some 9)).closes
        = [{ handle := 2, rid := 2 }] ∧
    (c3Pool.refDatasetAux "C" 5 true (some 9)).finalRid = 5 :=
  refDataset_full_unpinned_evicts_tail c3Pool "C" 5 true (some 9) [c3EntryA]
    c3EntryB 2 (by decide) (by decide) (by decide) (by decide) (by decide)
    (by decide) (by decide)

/-- C4: in a full pool in which every entry is pinned (`refCount > 0`) and
none carries the requested path, `refDataset` fails with the exhaustion error
whose diagnostic names the configured `maxSize`, returns no entry, closes
nothing, and leaves the pool state exactly as it was. -/
theorem refDataset_full_pinned_exhausted :
    ∀ (s : Pool) (p : String) (rid : Int) (sh : Bool) (o : Option Nat),
      s.currentSize = s.maxSize →
      (∀ e ∈ s.entries, 0 < e.refCount) →
      (∀ e ∈ s.entries, e.pszFileName ≠ p) →
      s.refDatasetAux p rid sh o =
        { outcome := RefOutcome.exhausted s.maxSize, pool := s, closes := [],
          finalRid := rid, openDisable := none } := by
  intro s p rid sh o hsz hpos hpath
  have hfm : findMatch p rid sh s.entries = none := findMatch_eq_none hpath
  have hsp : splitLastZero s.entries = none :=
    splitLastZero_eq_none_of (fun e he => by have := hpos e he; omega)
  have hbeq : (s.currentSize == s.maxSize) = true := by simpa using hsz
  simp [Pool.refDatasetAux, hfm, hbeq, hsp]

/-- A full two-entry pool of pinned entries. -/
def c4Pool : Pool :=
  { refCount := 1, maxSize := 2, currentSize := 2,
    entries :=
      [{ entryId := 0, responsiblePID := 1, pszFileName := "A",
         poDS := some 1, refCount := 1 },
       { entryId := 1, responsiblePID := 2, pszFileName := "B",
         poDS := some 2, refCount := 1 }],
    refCountOfDisableRefCount := 0, nextId := 2 }

/-- Witness for `refDataset_full_pinned_exhausted`: requesting "C" in the full
pinned pool [A, B] with `maxSize = 2` fails naming 2 and changes nothing. -/
theorem refDataset_full_pinned_exhausted_witness :
    c4Pool.refDatasetAux "C" 5 true (some 9) =
      { outcome := RefOutcome.exhausted 2, pool := c4Pool, closes := [],
        finalRid := 5, openDisable := none } :=
  refDataset_full_pinned_exhausted c4Pool "C" 5 true (some 9) (by decide)
    (by decide) (by decide)

/-- C5: from a state holding no entry for path `p` and with room to allocate,
two consecutive `refDataset(p, shared=true)` calls from the same thread (same
responsible PID) with no intervening pool operation return the same cache
entry both times (the same recycled storage, witnessed by the `entryId`), and
after the second call that entry has `refCount = 2` and sits at the head of
the list. -/
theorem refDataset_shared_twice_same_entry :
    ∀ (s : Pool) (p : String) (rid : Int) (o1 o2 : Option Nat),
      (∀ e ∈ s.entries, e.pszFileName ≠ p) →
      s.currentSize < s.maxSize →
      (s.refDatasetAux p rid true o1).outcome = RefOutcome.ok
          { entryId := s.nextId, responsiblePID := rid, pszFileName := p,
            poDS := o1, refCount := 1 } ∧
      ((s.refDatasetAux p rid true o1).pool.refDatasetAux p rid true o2).outcome
          = RefOutcome.ok
          { entryId := s.nextId, responsiblePID := rid, pszFileName := p,
            poDS := o1, refCount := 2 } ∧
      ((s.refDatasetAux p rid true o1).pool.refDatasetAux p rid true o2).pool.entries.head?
          = some
          { entryId := s.nextId, responsiblePID := rid, pszFileName := p,
            poDS := o1, refCount := 2 } := by
  intro s p rid o1 o2 hpath hroom
  have hfm : findMatch p rid true s.entries = none := findMatch_eq_none hpath
  have hbeq : (s.currentSize == s.maxSize) = false := by
    simp only [beq_eq_false_iff_ne, ne_eq]
    omega
  refine ⟨?_, ?_, ?_⟩ <;>
    simp [Pool.refDatasetAux, hfm, hbeq, findMatch, entryMatches]

/-- Witness for `refDataset_shared_twice_same_entry` on an empty pool. -/
theorem refDataset_shared_twice_same_entry_witness :
    ((newPool 100).refDatasetAux "p" 3 true (some 7)).outcome = RefOutcome.ok
        { entryId := 0, responsiblePID := 3, pszFileName := "p",
          poDS := some 7, refCount := 1 } ∧
    (((newPool 100).refDatasetAux "p" 3 true (some 7)).pool.refDatasetAux
        "p" 3 true (some 8)).outcome = RefOutcome.ok
        { entryId := 0, responsiblePID := 3, pszFileName := "p",
          poDS := some 7, refCount := 2 } ∧
    (((newPool 100).refDatasetAux "p" 3 true (some 7)).pool.refDatasetAux
        "p" 3 true (some 8)).pool.entries.head? = some
        { entryId := 0, responsiblePID := 3, pszFileName := "p",
          poDS := some 7, refCount := 2 } :=
  refDataset_shared_twice_same_entry (newPool 100) "p" 3 (some 7) (some 8)
    (by decide) (by decide)

/-- Helper: `UnrefDataset` through an `entryId` present in none of the list's
entries leaves the list unchanged. -/
theorem unref_map_id {l : List CacheEntry} {eid : Nat}
    (h : ∀ e ∈ l, e.entryId ≠ eid) :
    l.map (fun e => if e.entryId = eid
        then { e with refCount := e.refCount - 1 } else e) = l := by
  induction l with
  | nil => rfl
  | cons e rest ih =>
    have he : e.entryId ≠ eid := h e (List.mem_cons_self e rest)
    have ih' := ih (fun x hx => h x (List.mem_cons_of_mem _ hx))
    simp only [List.map_cons, ih']
    rw [if_neg he]

/-- C7: on a miss with room (no entry for the proxy's description, fresh
`entryId`) and a failing opener, `_RefDataset` still returns an entry — with
`poDS = NULL`, `refCount = 1`, occupying the head slot — and
`RefUnderlyingDataset` then detects the NULL handle, `UnrefDataset`s that
entry (its `refCount` drops back to 0) and hands NULL to its caller, with the
thread's responsible PID restored. -/
theorem refUnderlying_failed_open_returns_null :
    ∀ (ds : ProxyDataset) (curRid : Int) (s : Pool),
      (∀ e ∈ s.entries, e.pszFileName ≠ ds.description) →
      s.currentSize < s.maxSize →
      (∀ e ∈ s.entries, e.entryId ≠ s.nextId) →
      (s.refDatasetAux ds.description ds.responsiblePID ds.bShared none).outcome
          = RefOutcome.ok
          { entryId := s.nextId, responsiblePID := ds.responsiblePID,
            pszFileName := ds.description, poDS := none, refCount := 1 } ∧
      (s.refDatasetAux ds.description ds.responsiblePID ds.bShared none).pool.entries.head?
          = some
          { entryId := s.nextId, responsiblePID := ds.responsiblePID,
            pszFileName := ds.description, poDS := none, refCount := 1 } ∧
      (refUnderlyingDataset ds curRid s none).1 = none ∧
      (refUnderlyingDataset ds curRid s none).2.1.entries =
          { entryId := s.nextId, responsiblePID := ds.responsiblePID,
            pszFileName := ds.description, poDS := none, refCount := 0 }
          :: s.entries ∧
      (refUnderlyingDataset ds curRid s none).2.2 = curRid := by
  intro ds curRid s hpath hroom hfresh
  have hfm : findMatch ds.description ds.responsiblePID ds.bShared s.entries
      = none := findMatch_eq_none hpath
  have hbeq : (s.currentSize == s.maxSize) = false := by
    simp only [beq_eq_false_iff_ne, ne_eq]
    omega
  refine ⟨?_, ?_, ?_, ?_, ?_⟩ <;>
    simp [refUnderlyingDataset, Pool.refDatasetAux, hfm, hbeq,
      Pool.unrefDataset, unref_map_id hfresh]

/-- A shared proxy for path "x" created by thread 3. -/
def c7Proxy : ProxyDataset :=
  mkProxyPoolDataset "x" 1 1 Access.read true none none 3

/-- Witness for `refUnderlying_failed_open_returns_null` on an empty pool. -/
theorem refUnderlying_failed_open_returns_null_witness :
    ((newPool 2).refDatasetAux c7Proxy.description c7Proxy.responsiblePID
        c7Proxy.bShared none).outcome = RefOutcome.ok
        { entryId := 0, responsiblePID := 3, pszFileName := "x",
          poDS := none, refCount := 1 } ∧
    ((newPool 2).refDatasetAux c7Proxy.description c7Proxy.responsiblePID
        c7Proxy.bShared none).pool.entries.head? = some
        { entryId := 0, responsiblePID := 3, pszFileName := "x",
          poDS := none, refCount := 1 } ∧
    (refUnderlyingDataset c7Proxy 9 (newPool 2) none).1 = none ∧
    (refUnderlyingDataset c7Proxy 9 (newPool 2) none).2.1.entries =
        { entryId := 0, responsiblePID := 3, pszFileName := "x",
          poDS := none, refCount := 0 } :: (newPool 2).entries ∧
    (refUnderlyingDataset c7Proxy 9 (newPool 2) none).2.2 = 9 :=
  refUnderlying_failed_open_returns_null c7Proxy 9 (newPool 2) (by decide)
    (by decide) (by decide)

/-- A pool state reached from a fresh pool by: shared ref of "p" from thread
1, shared ref of "p" from thread 2 (a second entry for the same path), then
unref of both.  Both entries now carry path "p", `refCount = 0`, and live
handles. -/
def c8Pool : Pool :=
  let s0 := (poolRef (some 100) none).getD (newPool 100)
  let st1 := s0.refDatasetAux "p" 1 true (some 10)
  let st2 := st1.pool.refDatasetAux "p" 2 true (some 11)
  (st2.pool.unrefDataset 0).unrefDataset 1

/-- C8 counterexample: in the reachable state `c8Pool` (two unpinned entries
for path "p", created by shared refs from two threads), a second
`closeDataset("p")` is not a no-op — it closes the second matching entry. -/
theorem closeDataset_twice_ne_once :
    ((c8Pool.closeDatasetAux "p" Access.read).1.closeDatasetAux "p"
        Access.read).1 ≠ (c8Pool.closeDatasetAux "p" Access.read).1 := by
  decide

/-- C8 (amended): `closeDataset(p, a)` closes at most the first entry with
path `p`, `refCount == 0` and a live handle per call, so calling it twice
with no intervening ref of `p` equals calling it once provided at most one
entry satisfies that predicate (e.g. when at most one entry carries path
`p`); with several matching entries — reachable via shared refs from distinct
threads — each call closes one more of them. -/
theorem closeDataset_idem_when_at_most_one_match :
    ∀ (s : Pool) (p : String) (a a' : Access),
      s.entries.countP (fun e => closeMatch e p) ≤ 1 →
      ((s.closeDatasetAux p a).1.closeDatasetAux p a').1
          = (s.closeDatasetAux p a).1 ∧
      ((s.closeDatasetAux p a).1.closeDatasetAux p a').2 = [] := by
  intro s p a a' h
  have hidem := closeScan_idem h
  constructor <;> simp [Pool.closeDatasetAux, hidem]

/-- A one-entry pool: a single unpinned entry for path "q" with a live
handle. -/
def c8OnePool : Pool :=
  { refCount := 1, maxSize := 100, currentSize := 1,
    entries :=
      [{ entryId := 0, responsiblePID := 1, pszFileName := "q",
         poDS := some 5, refCount := 0 }],
    refCountOfDisableRefCount := 0, nextId := 1 }

/-- Witness for `closeDataset_idem_when_at_most_one_match` on a pool with a
single matching entry. -/
theorem closeDataset_idem_witness :
    ((c8OnePool.closeDatasetAux "q" Access.read).1.closeDatasetAux "q"
        Access.update).1 = (c8OnePool.closeDatasetAux "q" Access.read).1 ∧
    ((c8OnePool.closeDatasetAux "q" Access.read).1.closeDatasetAux "q"
        Access.update).2 = [] :=
  closeDataset_idem_when_at_most_one_match c8OnePool "q" Access.read
    Access.update (by decide)

/-- Helper: every entry strictly after the entry selected by
`splitLastZero` has non-zero `refCount` (it is the last such entry). -/
theorem splitLastZero_after_ne_zero {l b : List CacheEntry} {v : CacheEntry}
    {a : List CacheEntry} (h : splitLastZero l = some (b, v, a)) :
    ∀ x ∈ a, x.refCount ≠ 0 := by
  induction l generalizing b with
  | nil => simp [splitLastZero] at h
  | cons e rest ih =>
    simp only [splitLastZero] at h
    cases hr : splitLastZero rest with
    | some x =>
      obtain ⟨b', v', a'⟩ := x
      rw [hr] at h
      simp only [Option.some.injEq, Prod.mk.injEq] at h
      obtain ⟨hb, hv, ha⟩ := h
      subst hv ha
      exact ih hr
    | none =>
      rw [hr] at h
      by_cases hz : e.refCount = 0
      · simp only [hz, beq_self_eq_true, if_true, Option.some.injEq,
          Prod.mk.injEq] at h
        obtain ⟨hb, hv, ha⟩ := h
        subst ha
        exact refCount_ne_zero_of_splitLastZero_eq_none hr
      · have hzf : (e.refCount == 0) = false := by simpa using hz
        rw [hzf] at h
        simp at h

/-- A pool state reached from a fresh pool with `maxSize = 2` (a value the
configuration clamp allows) by: ref "B" (thread 1), ref "A" (thread 1), then
unref of "A".  The pool is full, the head "A" is the only zero-refcount
entry, and the tail "B" is pinned. -/
def c9Pool : Pool :=
  let s0 := (poolRef (some 2) none).getD (newPool 2)
  let st1 := s0.refDatasetAux "B" 1 true (some 20)
  let st2 := st1.pool.refDatasetAux "A" 1 true (some 21)
  st2.pool.unrefDataset 1

/-- C9 counterexample: with `maxSize = 2` (within the configuration clamp),
the reachable state `c9Pool` makes the eviction branch of `refDataset` select
a victim with no predecessor — the head — so the eviction-relink assertion
`CPLAssert(0)` IS reachable. -/
theorem eviction_assert_reachable :
    2 ≤ c9Pool.maxSize ∧
    (c9Pool.refDatasetAux "C" 1 true (some 22)).outcome
      = RefOutcome.assertViolation := by
  exact ⟨by decide, by decide⟩

/-- C9 (amended): in the eviction branch (miss with `size == maxSize`), the
selected victim has no predecessor — reaching the `CPLAssert(0)` — exactly
when the head is the only entry with `refCount == 0`; such states are
reachable through the public API even with `maxSize ≥ 2` (a full pool whose
head is unpinned and whose other entries are all pinned), so the assertion
is not unreachable.  Whenever some entry after the head is unpinned, the
victim has a predecessor. -/
theorem eviction_assert_iff_head_only_unpinned :
    ∀ (s : Pool) (p : String) (rid : Int) (sh : Bool) (o : Option Nat),
      findMatch p rid sh s.entries = none →
      s.currentSize = s.maxSize →
      ((s.refDatasetAux p rid sh o).outcome = RefOutcome.assertViolation ↔
        ∃ e t, s.entries = e :: t ∧ e.refCount = 0 ∧
          ∀ x ∈ t, x.refCount ≠ 0) := by
  intro s p rid sh o hfm hsz
  have hbeq : (s.currentSize == s.maxSize) = true := by simpa using hsz
  cases hsp : splitLastZero s.entries with
  | none =>
    have hout : (s.refDatasetAux p rid sh o).outcome
        = RefOutcome.exhausted s.maxSize := by
      simp [Pool.refDatasetAux, hfm, hbeq, hsp]
    rw [hout]
    constructor
    · intro h
      simp at h
    · rintro ⟨e, t, hent, hez, -⟩
      have := refCount_ne_zero_of_splitLastZero_eq_none hsp e
        (by rw [hent]; simp)
      exact absurd hez this
  | some x =>
    obtain ⟨b, v, aft⟩ := x
    obtain ⟨hent, hvz⟩ := splitLastZero_eq_some hsp
    cases b with
    | nil =>
      have hout : (s.refDatasetAux p rid sh o).outcome
          = RefOutcome.assertViolation := by
        simp [Pool.refDatasetAux, hfm, hbeq, hsp]
      rw [hout]
      refine ⟨fun _ => ⟨v, aft, ?_, hvz, splitLastZero_after_ne_zero hsp⟩,
        fun _ => rfl⟩
      simpa using hent
    | cons b0 bs =>
      have hout : (s.refDatasetAux p rid sh o).outcome = RefOutcome.ok
          { entryId := v.entryId, responsiblePID := rid, pszFileName := p,
            poDS := o, refCount := 1 } := by
        simp [Pool.refDatasetAux, hfm, hbeq, hsp]
      rw [hout]
      constructor
      · intro h
        simp at h
      · rintro ⟨e, t, hent2, hez, hall⟩
        rw [hent] at hent2
        have hcons : b0 :: (bs ++ v :: aft) = e :: t := by simpa using hent2
        have ht : t = bs ++ v :: aft :=
          ((List.cons.injEq _ _ _ _ ▸ hcons).2).symm
        have hvmem : v ∈ t := by rw [ht]; simp
        exact absurd hvz (hall v hvmem)

/-- Witness for `eviction_assert_iff_head_only_unpinned` at the reachable
state `c9Pool`. -/
theorem eviction_assert_iff_witness :
    (c9Pool.refDatasetAux "C" 1 true (some 22)).outcome
        = RefOutcome.assertViolation ↔
      ∃ e t, c9Pool.entries = e :: t ∧ e.refCount = 0 ∧
        ∀ x ∈ t, x.refCount ≠ 0 :=
  eviction_assert_iff_head_only_unpinned c9Pool "C" 1 true (some 22)
    (by decide) (by decide)

end GDALProxyPool
